import Mathlib

/-!
Shallow embedding of the INF2009_ProfilingEdge repository
(`profiling_package/sample_audio.py`, `sample_img.py`, `sample_dl.py`).

Python floats are modelled as `PyFloat` (a rational or a non-finite tag);
Python exceptions as `Except PyErr`; external collaborators (librosa,
cv2.imread, cv2.resize, the torch model) are opaque parameters carrying only
their documented shape contracts.  The header-file writers are modelled as
the exact text they write.
-/

/-- A Python float value: finite (modelled as a rational) or non-finite. -/
inductive PyFloat where
  | finite (q : ℚ)
  | nan
  | inf
  | ninf
deriving DecidableEq, Repr

/-- Python exceptions that the embedded code can raise. -/
inductive PyErr where
  | fileNotFound (msg : String)
  | zeroDivision
deriving DecidableEq, Repr

/-- Left-pad a numeral string with zeros to width 4. -/
def pad4 (s : String) : String :=
  String.mk (List.replicate (4 - s.length) '0') ++ s

/-- Python `.upper()` on an identifier (ASCII uppercasing of every
character). -/
def pyUpper (s : String) : String :=
  String.mk (s.data.map Char.toUpper)

/-- Render a rational as Python renders a float with format `.4f`: sign,
integer part, a dot, exactly four fractional digits; `|q| * 10000` is
rounded to the nearest integer with ties to even, the rounding CPython
float formatting uses.  Computed on the reduced numerator and denominator
so that `|q| * 10000 = a / d` below. -/
def fmtQ4 (q : ℚ) : String :=
  let sgn := if q.num < 0 then "-" else ""
  let a : ℕ := q.num.natAbs * 10000
  let d : ℕ := q.den
  let fl : ℕ := a / d
  let r : ℕ := a % d
  let n : ℕ :=
    if d < 2 * r then fl + 1
    else if 2 * r < d then fl
    else if fl % 2 = 0 then fl else fl + 1
  sgn ++ toString (n / 10000) ++ "." ++ pad4 (toString (n % 10000))

/-- Python `f"{x:.4f}"` on a possibly non-finite float. -/
def fmt4 (x : PyFloat) : String :=
  match x with
  | .finite q => fmtQ4 q
  | .nan => "nan"
  | .inf => "inf"
  | .ninf => "-inf"

/-- Pattern `p` occurs at the head of `l` (list-of-characters matching). -/
def occursAt : List Char → List Char → Bool
  | [], _ => true
  | _ :: _, [] => false
  | p :: ps, c :: cs => p == c && occursAt ps cs

/-- Pattern `p` occurs somewhere inside `l`. -/
def occursIn (p : List Char) : List Char → Bool
  | [] => p.isEmpty
  | c :: cs => occursAt p (c :: cs) || occursIn p cs

/-- Fuel-driven worker for `chunk8`; the fuel is an upper bound on the
number of chunks still to produce, so it reduces structurally. -/
def chunk8Go {α : Type} : ℕ → List α → List (List α)
  | _, [] => []
  | 0, _ :: _ => []
  | fuel + 1, x :: xs => (x :: xs.take 7) :: chunk8Go fuel (xs.drop 7)

/-- Split a list into chunks of eight, mirroring
`for i in range(0, len(flat_data), 8): flat_data[i:i+8]`. -/
def chunk8 {α : Type} (l : List α) : List (List α) :=
  chunk8Go l.length l

namespace SampleAudio

/-- Addition on `PyFloat` with NaN/infinity propagation, as NumPy sums behave. -/
def pfAdd : PyFloat → PyFloat → PyFloat
  | .finite a, .finite b => .finite (a + b)
  | .nan, _ => .nan
  | _, .nan => .nan
  | .inf, .ninf => .nan
  | .ninf, .inf => .nan
  | .inf, _ => .inf
  | _, .inf => .inf
  | .ninf, _ => .ninf
  | _, .ninf => .ninf

/-- Sum of a list of Python floats (NumPy reduction order, left fold from 0). -/
def pfSum (l : List PyFloat) : PyFloat :=
  l.foldl pfAdd (.finite 0)

/-- Divide a Python float by a natural count; an empty count gives NaN, as
`np.mean` on an empty axis does. -/
def pfDivNat (x : PyFloat) (n : ℕ) : PyFloat :=
  if n = 0 then .nan
  else
    match x with
    | .finite q => .finite (q / (n : ℚ))
    | .nan => .nan
    | .inf => .inf
    | .ninf => .ninf

/-- Mean of one row, `np.mean` style (one MFCC coefficient across all time frames). -/
def npMeanRow (row : List PyFloat) : PyFloat :=
  pfDivNat (pfSum row) row.length

/-- Per-row arithmetic mean `np.mean(mfccs, axis=1)` of the coefficient
matrix (rows are coefficients, columns are time frames). -/
def npMeanAxis1 (m : List (List PyFloat)) : List PyFloat :=
  m.map npMeanRow

/-- The `extract_edge_features` function from `sample_audio.py`: load at `sample_rate`,
take the MFCC matrix with `n_mfcc = 13`, reduce by the mean across time.
`load` stands for `librosa.load` and `mfccF` for `librosa.feature.mfcc`
(opaque external collaborators, passed the arguments the source passes). -/
def extract_edge_features (load : String → ℕ → List ℚ)
    (mfccF : List ℚ → ℕ → ℕ → List (List PyFloat))
    (audio_path : String) (sample_rate : ℕ) : List PyFloat :=
  let y := load audio_path sample_rate
  let mfccs := mfccF y sample_rate 13
  npMeanAxis1 mfccs

/-- The exact text written by `export_to_header` in `sample_audio.py`:
include guard, a fixed comment, a declaration with the hard-coded bound 13,
all values on one line with no trailing comma. -/
def audioHeaderText (feature_vector : List PyFloat) (var_name : String) : String :=
  ("#ifndef " ++ pyUpper var_name ++ "_H\n#define " ++ pyUpper var_name ++ "_H\n\n")
    ++ "// Extracted MFCC Feature Vector (13 coefficients)\n"
    ++ ("const float " ++ var_name ++ "[13] = \x7b\n")
    ++ ("    " ++ String.intercalate ", " (feature_vector.map (fun x => fmt4 x ++ "f")) ++ "\n")
    ++ "\x7d;\n\n#endif"

/-- The `export_to_header` call of `sample_audio.py` as Python executes it: the
body contains no raising operation and no validation, so it always succeeds,
returning the text written to the file. -/
def export_to_header (feature_vector : List PyFloat) (var_name : String) :
    Except PyErr String :=
  .ok (audioHeaderText feature_vector var_name)

end SampleAudio

namespace SampleImg

/-- The exact text written by `export_to_header` in `sample_img.py`: include
guard, declaration bound `len(flat_data)`, eight values per line, every
value line (the last included) ending in a comma. -/
def imgHeaderText (flat_data : List PyFloat) (var_name : String) : String :=
  ("#ifndef " ++ pyUpper var_name ++ "_H\n#define " ++ pyUpper var_name ++ "_H\n\n")
    ++ ("const float " ++ var_name ++ "[" ++ toString flat_data.length ++ "] = \x7b\n")
    ++ String.join ((chunk8 flat_data).map
        (fun c => "    " ++ String.intercalate ", " (c.map (fun x => fmt4 x ++ "f")) ++ ",\n"))
    ++ "\x7d;\n\n#endif"

/-- The `export_to_header` call of `sample_img.py`: like the audio variant, the body
cannot raise and validates nothing, so it always succeeds with the text it
writes. -/
def export_to_header (data : List PyFloat) (var_name : String) :
    Except PyErr String :=
  .ok (imgHeaderText data var_name)

/-- Shape of an OpenCV image (`ndarray.shape`): rows, columns, channels
(channel count 1 models a 2-D grayscale array). -/
structure CvImage where
  rows : ℕ
  cols : ℕ
  channels : ℕ
deriving DecidableEq, Repr

/-- Interpolation flag passed to `cv2.resize`. -/
inductive Interp where
  | area
  | linear
deriving DecidableEq, Repr

/-- Shape-level `cv2.cvtColor(img, cv2.COLOR_BGR2GRAY)`: same rows and
columns, single channel. -/
def cvtColorToGray (img : CvImage) : CvImage :=
  { rows := img.rows, cols := img.cols, channels := 1 }

/-- Shape-level `cv2.resize(img, dsize)`: `dsize` is `(width, height)`,
so the result has `dsize.2` rows and `dsize.1` columns. -/
def cvResizeShape (img : CvImage) (dsize : ℕ × ℕ) : CvImage :=
  { rows := dsize.2, cols := dsize.1, channels := img.channels }

/-- What `process_for_edge_profiling` hands to its collaborators: the resized
image returned, the image given to `skimage.feature.hog`, the
`pixels_per_cell` argument of that call, and the interpolation flag given to
`cv2.resize`. -/
structure ProcResult where
  resized : CvImage
  hogInput : CvImage
  cellSize : ℕ × ℕ
  interpUsed : Interp
deriving DecidableEq, Repr

/-- The `process_for_edge_profiling` function from `sample_img.py`, with `cv2.imread`
abstracted as `imread` (returning `none` where Python returns `None`): on a
missing image it raises `FileNotFoundError`; otherwise it grayscales,
resizes to `(cols // d, rows // d)` with `INTER_AREA`, and passes the
resized image directly to `hog` with `pixels_per_cell=(16, 16)`. -/
def process_for_edge_profiling (imread : String → Option CvImage)
    (image_path : String) (downscale_factor : ℕ) : Except PyErr ProcResult :=
  match imread image_path with
  | none => .error (.fileNotFound ("Could not load " ++ image_path))
  | some img =>
    let gray := cvtColorToGray img
    let new_size := (gray.cols / downscale_factor, gray.rows / downscale_factor)
    let resized := cvResizeShape gray new_size
    .ok { resized := resized, hogInput := resized,
          cellSize := (16, 16), interpUsed := .area }

end SampleImg

namespace SampleDl

/-- A camera frame or tensor slice: rows of pixels, each pixel a list of
channel values. -/
abbrev Img3 := List (List (List ℚ))

/-- Conversion `cv2.cvtColor(img, cv2.COLOR_BGR2RGB)`: reverses the channel order of
every pixel. -/
def cvtColorBGR2RGB (img : Img3) : Img3 :=
  img.map (fun row => row.map List.reverse)

/-- Elementwise `img / 255.0`. -/
def divBy255 (img : Img3) : Img3 :=
  img.map (fun row => row.map (fun px => px.map (fun v => v / 255)))

/-- Permutation `.permute(2, 0, 1)`: from (H, W, C) to (C, H, W). -/
def permute201 (img : Img3) : Img3 :=
  (List.range ((img.headD []).headD []).length).map
    (fun c => img.map (fun row => row.map (fun px => px.getD c 0)))

/-- Batch-dimension insertion `.unsqueeze(0)`. -/
def unsqueeze0 (t : Img3) : List Img3 :=
  [t]

/-- The `preprocess_frame` function from `sample_dl.py`, with `cv2.resize` (to 224×224)
abstracted as `cvResize`: resize, BGR→RGB, scale by 1/255, permute to
(C, H, W), add the batch dimension. -/
def preprocess_frame (cvResize : Img3 → Img3) (frame : Img3) : List Img3 :=
  unsqueeze0 (permute201 (divBy255 (cvtColorBGR2RGB (cvResize frame))))

/-- Well-formedness of a nested-list image with dimensions (H, W, C). -/
def dims3 (img : Img3) (H W C : ℕ) : Prop :=
  img.length = H ∧ ∀ row ∈ img, row.length = W ∧ ∀ px ∈ row, px.length = C

/-- Well-formedness of a batched tensor with dimensions (N, C, H, W). -/
def dims4 (t : List Img3) (N C H W : ℕ) : Prop :=
  t.length = N ∧ ∀ x ∈ t, dims3 x C H W

/-- Every channel value of the image satisfies `P`. -/
def allVals (P : ℚ → Prop) (img : Img3) : Prop :=
  ∀ row ∈ img, ∀ px ∈ row, ∀ v ∈ px, P v

/-- Every channel value of the batched tensor satisfies `P`. -/
def allVals4 (P : ℚ → Prop) (t : List Img3) : Prop :=
  ∀ x ∈ t, allVals P x

/-- Python division raises `ZeroDivisionError` on a zero divisor. -/
def pyDiv (a b : ℚ) : Except PyErr ℚ :=
  if b = 0 then .error .zeroDivision else .ok (a / b)

/-- Per-frame latency in `run_inference`: `end_time - start_time` of the two
`time.time()` readings around preprocess plus inference. -/
def frameLatency (start_time end_time : ℚ) : ℚ :=
  end_time - start_time

/-- Per-frame `fps = 1 / (end_time - start_time)` exactly as the source
computes it, with Python division semantics. -/
def frameFps (start_time end_time : ℚ) : Except PyErr ℚ :=
  pyDiv 1 (frameLatency start_time end_time)

/-- Inputs of one iteration of the `run_inference` loop: either `cap.read()`
returns `ret == False`, or a frame arrives, in which case `raises` records
whether any operation of the loop body (preprocess, inference, overlay,
display) raises, and `key` is the `cv2.waitKey(1)` result. -/
inductive FrameEvent where
  | readFail
  | frame (raises : Bool) (key : ℕ)
deriving DecidableEq, Repr

/-- Outcome of one `run_inference` run: whether `cap.release()` (and
`cv2.destroyAllWindows()`) ran before the function ended, and whether an
exception escaped. -/
structure RunResult where
  released : Bool
  excEscaped : Bool
deriving DecidableEq, Repr

/-- The `run_inference` loop of `sample_dl.py` over a finite event trace
(an exhausted trace models `cap.isOpened()` turning false).  The source has
no try/finally: `cap.release()` is reached only by falling out of the loop
(read failure, the `q` key, or the loop condition), while an exception in
the body propagates out of the function first. -/
def loopRun : List FrameEvent → RunResult
  | [] => { released := true, excEscaped := false }
  | .readFail :: _ => { released := true, excEscaped := false }
  | .frame raises key :: rest =>
    if raises then { released := false, excEscaped := true }
    else if key % 256 = 113 then { released := true, excEscaped := false }
    else loopRun rest

end SampleDl

/-! ## Claims -/

/-- C1 (counterexample): on the golden input `[1.0, -2.5, 0.333333]`,
variable `foo`, eight values per line, the encoder does NOT produce the
claimed text: the code writes a comma after the last value of the final
value line. -/
theorem C1_counterexample :
    SampleImg.imgHeaderText
        [PyFloat.finite 1, PyFloat.finite (mkRat (-5) 2),
          PyFloat.finite (mkRat 333333 1000000)] "foo"
      ≠ "#ifndef FOO_H\n#define FOO_H\n\nconst float foo[3] = \x7b\n    1.0000f, -2.5000f, 0.3333f\n\x7d;\n\n#endif" := by
  decide

/-- C1 (amended): the encoder produces exactly the claimed text except that
the final value line also ends in a comma; every float is rendered with four
digits after the decimal point and suffixed with `f`. -/
theorem C1_golden_with_trailing_comma :
    SampleImg.imgHeaderText
        [PyFloat.finite 1, PyFloat.finite (mkRat (-5) 2),
          PyFloat.finite (mkRat 333333 1000000)] "foo"
      = "#ifndef FOO_H\n#define FOO_H\n\nconst float foo[3] = \x7b\n    1.0000f, -2.5000f, 0.3333f,\n\x7d;\n\n#endif" := by
  decide

/-- C2 (counterexample): with a NaN value AND a variable name containing a
space, encode does not fail with a `ValidationError`: it succeeds and
produces (writes) the header text, with `nan` as the rendered literal and
the invalid name interpolated verbatim. -/
theorem C2_counterexample :
    SampleImg.export_to_header [PyFloat.nan] "foo bar"
      = Except.ok "#ifndef FOO BAR_H\n#define FOO BAR_H\n\nconst float foo bar[1] = \x7b\n    nanf,\n\x7d;\n\n#endif" := by
  unfold SampleImg.export_to_header
  exact congrArg Except.ok (by decide)

/-- C2 (amended): both encoders perform no validation at all — for every
input vector (non-finite values included) and every variable name they
succeed and write the header text; a NaN value is emitted as the unparsable
C literal `nanf`. -/
theorem C2_no_validation :
    (∀ (data : List PyFloat) (name : String),
        SampleImg.export_to_header data name
            = Except.ok (SampleImg.imgHeaderText data name)
          ∧ SampleAudio.export_to_header data name
            = Except.ok (SampleAudio.audioHeaderText data name))
      ∧ occursIn "nanf".toList
          (SampleImg.imgHeaderText [PyFloat.nan] "x").toList = true := by
  exact ⟨fun _ _ => ⟨rfl, rfl⟩, by decide⟩

/-- C3 (counterexample): the audio-export variant given a 3-element vector
declares `foo[13]`, not `foo[3]` — the written bound is the hard-coded 13,
not the element count. -/
theorem C3_counterexample :
    occursIn "foo[3]".toList
        (SampleAudio.audioHeaderText
          [PyFloat.finite 1, PyFloat.finite 2, PyFloat.finite 3] "foo").toList = false
      ∧ occursIn "foo[13]".toList
        (SampleAudio.audioHeaderText
          [PyFloat.finite 1, PyFloat.finite 2, PyFloat.finite 3] "foo").toList = true := by
  decide

/-- C3 (amended): the image-export variant declares exactly the flattened
element count for every vector; the audio-export variant always declares
the fixed bound 13, whatever the length of the vector. -/
theorem C3_declared_bounds :
    ∀ (data : List PyFloat) (name : String),
      (∃ pre post, SampleImg.imgHeaderText data name
          = pre ++ ("const float " ++ name ++ "[" ++ toString data.length ++ "] = \x7b\n") ++ post)
        ∧ (∃ pre post, SampleAudio.audioHeaderText data name
          = pre ++ ("const float " ++ name ++ "[13] = \x7b\n") ++ post) := by
  intro data name
  constructor
  · refine ⟨"#ifndef " ++ pyUpper name ++ "_H\n#define " ++ pyUpper name ++ "_H\n\n",
      String.join ((chunk8 data).map
        (fun c => "    " ++ String.intercalate ", " (c.map (fun x => fmt4 x ++ "f")) ++ ",\n"))
        ++ "\x7d;\n\n#endif", ?_⟩
    simp only [SampleImg.imgHeaderText, String.append_assoc]
  · refine ⟨("#ifndef " ++ pyUpper name ++ "_H\n#define " ++ pyUpper name ++ "_H\n\n")
        ++ "// Extracted MFCC Feature Vector (13 coefficients)\n",
      ("    " ++ String.intercalate ", " (data.map (fun x => fmt4 x ++ "f")) ++ "\n")
        ++ "\x7d;\n\n#endif", ?_⟩
    simp only [SampleAudio.audioHeaderText, String.append_assoc]

/-- C4 (counterexample): when the image file cannot be loaded (`cv2.imread`
returns `None`), the extractor does not substitute a synthetic input — it
raises `FileNotFoundError` and the pipeline fails. -/
theorem C4_counterexample :
    SampleImg.process_for_edge_profiling (fun _ => none) "test_image.jpg" 2
      = Except.error (PyErr.fileNotFound "Could not load test_image.jpg") := rfl

/-- C4 (amended): for every missing source-file path, the image extractor
raises `FileNotFoundError("Could not load <path>")`; there is no fallback
to a synthetic random buffer. -/
theorem C4_missing_file_raises (imread : String → Option SampleImg.CvImage)
    (path : String) (d : ℕ) (h : imread path = none) :
    SampleImg.process_for_edge_profiling imread path d
      = Except.error (PyErr.fileNotFound ("Could not load " ++ path)) := by
  unfold SampleImg.process_for_edge_profiling
  rw [h]

/-- Witness for C4: a loader that finds nothing makes the extractor raise. -/
theorem C4_missing_file_raises_witness :
    SampleImg.process_for_edge_profiling (fun _ => none) "missing.jpg" 2
      = Except.error (PyErr.fileNotFound ("Could not load " ++ "missing.jpg")) :=
  C4_missing_file_raises (fun _ => none) "missing.jpg" 2 rfl

/-- C6 (counterexample): with equal start and end timestamps the per-frame
fps computation raises `ZeroDivisionError` — it is not guarded and yields no
sentinel value. -/
theorem C6_counterexample :
    SampleDl.frameFps 5 5 = Except.error PyErr.zeroDivision := by
  simp [SampleDl.frameFps, SampleDl.pyDiv, SampleDl.frameLatency]

/-- C6 (amended): per-frame latency is `end - start` of the two `time.time()`
readings around preprocess plus inference, and `fps = 1 / latency` with no
guard: a zero latency raises `ZeroDivisionError` instead of producing a
sentinel. -/
theorem C6_fps_unguarded (s e : ℚ) :
    SampleDl.frameFps s e
      = if SampleDl.frameLatency s e = 0 then Except.error PyErr.zeroDivision
        else Except.ok (1 / (e - s)) := by
  simp [SampleDl.frameFps, SampleDl.pyDiv, SampleDl.frameLatency]

/-- C7 (counterexample): for a 100×100 input downscaled by 2, the HoG call
receives a 50×50 image — 50 is not a multiple of the 16-pixel cell size, so
no window flooring to cell-size multiples happened before descriptor
computation. -/
theorem C7_counterexample :
    SampleImg.process_for_edge_profiling (fun _ => some ⟨100, 100, 3⟩) "img.jpg" 2
        = Except.ok { resized := ⟨50, 50, 1⟩, hogInput := ⟨50, 50, 1⟩,
                      cellSize := (16, 16), interpUsed := .area }
      ∧ ¬ (16 ∣ (50 : ℕ)) :=
  ⟨rfl, by decide⟩

/-- C7 (amended): no flooring step exists — on every successful extraction
the descriptor receives exactly the resized image of shape
`(rows // d, cols // d)`, whatever its alignment with the 16-pixel cells. -/
theorem C7_no_window_flooring (imread : String → Option SampleImg.CvImage)
    (path : String) (d : ℕ) (img : SampleImg.CvImage)
    (h : imread path = some img) :
    SampleImg.process_for_edge_profiling imread path d
      = Except.ok { resized := ⟨img.rows / d, img.cols / d, 1⟩,
                    hogInput := ⟨img.rows / d, img.cols / d, 1⟩,
                    cellSize := (16, 16), interpUsed := .area } := by
  unfold SampleImg.process_for_edge_profiling
  rw [h]
  rfl

/-- Witness for C7: a 7×9 image downscaled by 4 reaches HoG as 1×2. -/
theorem C7_no_window_flooring_witness :
    SampleImg.process_for_edge_profiling (fun _ => some ⟨7, 9, 3⟩) "a.jpg" 4
      = Except.ok { resized := ⟨7 / 4, 9 / 4, 1⟩, hogInput := ⟨7 / 4, 9 / 4, 1⟩,
                    cellSize := (16, 16), interpUsed := .area } :=
  C7_no_window_flooring (fun _ => some ⟨7, 9, 3⟩) "a.jpg" 4 ⟨7, 9, 3⟩ rfl

/-- C8 (confirmed): for every loaded H×W image and every downscale factor
`d ≥ 1`, the resized image is grayscale of exactly `(H // d, W // d)` (floor
division), produced with `INTER_AREA` interpolation, independent of pixel
content. -/
theorem C8_downscale_shape (imread : String → Option SampleImg.CvImage)
    (path : String) (d : ℕ) (img : SampleImg.CvImage)
    (hd : 1 ≤ d) (h : imread path = some img) :
    ∃ r, SampleImg.process_for_edge_profiling imread path d = Except.ok r
      ∧ r.resized.rows = img.rows / d ∧ r.resized.cols = img.cols / d
      ∧ r.resized.channels = 1 ∧ r.interpUsed = SampleImg.Interp.area := by
  unfold SampleImg.process_for_edge_profiling
  rw [h]
  exact ⟨_, rfl, rfl, rfl, rfl, rfl⟩

/-- Witness for C8: a 480×640 frame at downscale factor 2. -/
theorem C8_downscale_shape_witness :
    1 ≤ 2
      ∧ ∃ r, SampleImg.process_for_edge_profiling
            (fun _ => some ⟨480, 640, 3⟩) "t.jpg" 2 = Except.ok r
          ∧ r.resized.rows = (480 : ℕ) / 2 ∧ r.resized.cols = (640 : ℕ) / 2
          ∧ r.resized.channels = 1 ∧ r.interpUsed = SampleImg.Interp.area :=
  ⟨by decide,
    C8_downscale_shape (fun _ => some ⟨480, 640, 3⟩) "t.jpg" 2 ⟨480, 640, 3⟩
      (by decide) rfl⟩

/-- C9 (counterexample): if the loop body raises on the very first frame
(e.g. inference fails), the exception escapes `run_inference` without
`cap.release()` running — the run ends with the device handle still held. -/
theorem C9_counterexample :
    SampleDl.loopRun [SampleDl.FrameEvent.frame true 0]
      = { released := false, excEscaped := true } := rfl

/-- C9 (amended): the capture and display resources are released on the
normal-quit and read-failure exit paths (and on loop exhaustion), but not
when an error is raised inside the loop body: release happens exactly when
no exception escapes. -/
theorem C9_release_unless_exception (events : List SampleDl.FrameEvent) :
    (SampleDl.loopRun events).released = !(SampleDl.loopRun events).excEscaped := by
  induction events with
  | nil => rfl
  | cons ev rest ih =>
    cases ev with
    | readFail => rfl
    | frame raises key =>
      cases raises with
      | true => rfl
      | false =>
        by_cases hk : key % 256 = 113
        · simp [SampleDl.loopRun, hk]
        · simpa [SampleDl.loopRun, hk] using ih

/-- Folding `pfAdd` over finite values starting from a finite accumulator
stays finite and adds up. -/
theorem pfAdd_foldl_map_finite (qs : List ℚ) (a : ℚ) :
    (qs.map PyFloat.finite).foldl SampleAudio.pfAdd (PyFloat.finite a)
      = PyFloat.finite (a + qs.sum) := by
  induction qs generalizing a with
  | nil => simp
  | cons q rest ih =>
    simp only [List.map_cons, List.foldl_cons, List.sum_cons]
    rw [show SampleAudio.pfAdd (PyFloat.finite a) (PyFloat.finite q)
          = PyFloat.finite (a + q) from rfl, ih]
    ring_nf

/-- C5 (confirmed): whenever the (opaque) MFCC collaborator returns the
13-row coefficient matrix it is documented to return for `n_mfcc = 13` —
whatever the duration of the clip, an empty matrix of 13 empty rows included —
`extract_edge_features` returns a vector of length 13, namely the per-row
reduction of the matrix by `npMeanRow`, which on any nonempty row of finite
values is the arithmetic mean of that coefficient across the time axis. -/
theorem C5_mfcc_mean_vector (load : String → ℕ → List ℚ)
    (mfccF : List ℚ → ℕ → ℕ → List (List PyFloat)) (path : String)
    (h : (mfccF (load path 16000) 16000 13).length = 13) :
    (SampleAudio.extract_edge_features load mfccF path 16000).length = 13
      ∧ SampleAudio.extract_edge_features load mfccF path 16000
          = (mfccF (load path 16000) 16000 13).map SampleAudio.npMeanRow
      ∧ ∀ qs : List ℚ, qs ≠ [] →
          SampleAudio.npMeanRow (qs.map PyFloat.finite)
            = PyFloat.finite (qs.sum / (qs.length : ℚ)) := by
  refine ⟨?_, rfl, ?_⟩
  · simpa [SampleAudio.extract_edge_features, SampleAudio.npMeanAxis1] using h
  · intro qs hqs
    have hlen : qs.length ≠ 0 := fun hz => hqs (List.length_eq_zero.mp hz)
    simp only [SampleAudio.npMeanRow, SampleAudio.pfSum, pfAdd_foldl_map_finite,
      List.length_map, SampleAudio.pfDivNat, hlen, if_false, zero_add]

/-- Witness for C5: a loader and MFCC stub for a zero-length clip (13 empty
rows) still give a 13-element vector. -/
theorem C5_mfcc_mean_vector_witness :
    (SampleAudio.extract_edge_features (fun _ _ => [])
        (fun _ _ _ => List.replicate 13 []) "test.wav" 16000).length = 13
      ∧ SampleAudio.extract_edge_features (fun _ _ => [])
          (fun _ _ _ => List.replicate 13 []) "test.wav" 16000
        = ((fun (_ : List ℚ) (_ _ : ℕ) => List.replicate 13 ([] : List PyFloat))
            ((fun (_ : String) (_ : ℕ) => ([] : List ℚ)) "test.wav" 16000) 16000 13).map
            SampleAudio.npMeanRow
      ∧ ∀ qs : List ℚ, qs ≠ [] →
          SampleAudio.npMeanRow (qs.map PyFloat.finite)
            = PyFloat.finite (qs.sum / (qs.length : ℚ)) :=
  C5_mfcc_mean_vector (fun _ _ => []) (fun _ _ _ => List.replicate 13 [])
    "test.wav" (by simp)

/-- Indexing with `getD` inside the bounds takes a member of the list. -/
theorem getD_mem_of_lt {l : List ℚ} {n : ℕ} (d : ℚ) (h : n < l.length) :
    l.getD n d ∈ l := by
  induction l generalizing n with
  | nil => simp at h
  | cons x xs ih =>
    cases n with
    | zero => simp
    | succ m =>
      simp only [List.getD_cons_succ]
      exact List.mem_cons_of_mem _ (ih (Nat.lt_of_succ_lt_succ h))

/-- On a nonempty well-formed image, the channel count read off the first
pixel is the uniform channel count. -/
theorem headLen_eq {img : SampleDl.Img3} {H W C : ℕ}
    (hd : SampleDl.dims3 img H W C) (hH : 0 < H) (hW : 0 < W) :
    ((img.headD []).headD []).length = C := by
  obtain ⟨h1, h2⟩ := hd
  cases img with
  | nil => simp at h1; omega
  | cons r rs =>
    obtain ⟨hrl, hpx⟩ := h2 r (List.mem_cons_self r rs)
    cases r with
    | nil => simp at hrl; omega
    | cons px pxs => exact hpx px (List.mem_cons_self px pxs)

/-- BGR→RGB conversion preserves the dimensions of the image. -/
theorem dims3_cvtColorBGR2RGB {img : SampleDl.Img3} {H W C : ℕ}
    (h : SampleDl.dims3 img H W C) :
    SampleDl.dims3 (SampleDl.cvtColorBGR2RGB img) H W C := by
  obtain ⟨h1, h2⟩ := h
  refine ⟨by simpa [SampleDl.cvtColorBGR2RGB] using h1, ?_⟩
  intro row hrow
  simp only [SampleDl.cvtColorBGR2RGB, List.mem_map] at hrow
  obtain ⟨row0, hr0, rfl⟩ := hrow
  obtain ⟨hl, hpx⟩ := h2 row0 hr0
  refine ⟨by simpa using hl, ?_⟩
  intro px hpx2
  simp only [List.mem_map] at hpx2
  obtain ⟨px0, hp0, rfl⟩ := hpx2
  simpa using hpx px0 hp0

/-- BGR→RGB conversion preserves the set of channel values. -/
theorem allVals_cvtColorBGR2RGB {P : ℚ → Prop} {img : SampleDl.Img3}
    (h : SampleDl.allVals P img) :
    SampleDl.allVals P (SampleDl.cvtColorBGR2RGB img) := by
  intro row hrow px hpx v hv
  simp only [SampleDl.cvtColorBGR2RGB, List.mem_map] at hrow
  obtain ⟨row0, hr0, rfl⟩ := hrow
  simp only [List.mem_map] at hpx
  obtain ⟨px0, hp0, rfl⟩ := hpx
  exact h row0 hr0 px0 hp0 v (List.mem_reverse.mp hv)

/-- Elementwise division by 255 preserves the dimensions of the image. -/
theorem dims3_divBy255 {img : SampleDl.Img3} {H W C : ℕ}
    (h : SampleDl.dims3 img H W C) :
    SampleDl.dims3 (SampleDl.divBy255 img) H W C := by
  obtain ⟨h1, h2⟩ := h
  refine ⟨by simpa [SampleDl.divBy255] using h1, ?_⟩
  intro row hrow
  simp only [SampleDl.divBy255, List.mem_map] at hrow
  obtain ⟨row0, hr0, rfl⟩ := hrow
  obtain ⟨hl, hpx⟩ := h2 row0 hr0
  refine ⟨by simpa using hl, ?_⟩
  intro px hpx2
  simp only [List.mem_map] at hpx2
  obtain ⟨px0, hp0, rfl⟩ := hpx2
  simpa using hpx px0 hp0

/-- Division by 255 maps byte-range values into the unit interval. -/
theorem allVals_divBy255 {img : SampleDl.Img3}
    (h : SampleDl.allVals (fun v => 0 ≤ v ∧ v ≤ 255) img) :
    SampleDl.allVals (fun v => 0 ≤ v ∧ v ≤ 1) (SampleDl.divBy255 img) := by
  intro row hrow px hpx v hv
  simp only [SampleDl.divBy255, List.mem_map] at hrow
  obtain ⟨row0, hr0, rfl⟩ := hrow
  simp only [List.mem_map] at hpx
  obtain ⟨px0, hp0, rfl⟩ := hpx
  simp only [List.mem_map] at hv
  obtain ⟨v0, hv0, rfl⟩ := hv
  obtain ⟨hge, hle⟩ := h row0 hr0 px0 hp0 v0 hv0
  constructor
  · exact div_nonneg hge (by norm_num)
  · rw [div_le_one (by norm_num : (0:ℚ) < 255)]
    exact hle

/-- The (2, 0, 1) permutation turns an (H, W, C) image into a (C, H, W)
tensor. -/
theorem dims3_permute201 {img : SampleDl.Img3} {H W C : ℕ}
    (hd : SampleDl.dims3 img H W C) (hH : 0 < H) (hW : 0 < W) :
    SampleDl.dims3 (SampleDl.permute201 img) C H W := by
  have hC := headLen_eq hd hH hW
  obtain ⟨h1, h2⟩ := hd
  refine ⟨?_, ?_⟩
  · show ((List.range ((img.headD []).headD []).length).map _).length = C
    rw [List.length_map, List.length_range, hC]
  intro slice hslice
  simp only [SampleDl.permute201, hC, List.mem_map, List.mem_range] at hslice
  obtain ⟨c, hc, rfl⟩ := hslice
  refine ⟨by simpa using h1, ?_⟩
  intro mrow hmrow
  simp only [List.mem_map] at hmrow
  obtain ⟨row, hrow, rfl⟩ := hmrow
  simpa using (h2 row hrow).1

/-- The (2, 0, 1) permutation only rearranges values, so any elementwise
property survives it (on a well-formed nonempty image). -/
theorem allVals_permute201 {P : ℚ → Prop} {img : SampleDl.Img3} {H W C : ℕ}
    (hd : SampleDl.dims3 img H W C) (hH : 0 < H) (hW : 0 < W)
    (h : SampleDl.allVals P img) :
    SampleDl.allVals P (SampleDl.permute201 img) := by
  have hC := headLen_eq hd hH hW
  obtain ⟨h1, h2⟩ := hd
  intro slice hslice mrow hmrow v hv
  simp only [SampleDl.permute201, hC, List.mem_map, List.mem_range] at hslice
  obtain ⟨c, hc, rfl⟩ := hslice
  simp only [List.mem_map] at hmrow
  obtain ⟨row, hrow, rfl⟩ := hmrow
  simp only [List.mem_map] at hv
  obtain ⟨px, hpx, rfl⟩ := hv
  have hcl : c < px.length := by
    rw [(h2 row hrow).2 px hpx]
    exact hc
  exact h row hrow px hpx _ (getD_mem_of_lt 0 hcl)

/-- C10 (confirmed): whatever the capture frame, once `cv2.resize` has
produced its documented 224×224 3-channel byte-valued output,
`preprocess_frame` returns a tensor of shape exactly (1, 3, 224, 224) with
every value in [0, 1]. -/
theorem C10_preprocess_shape (cvResize : SampleDl.Img3 → SampleDl.Img3)
    (frame : SampleDl.Img3)
    (hdim : SampleDl.dims3 (cvResize frame) 224 224 3)
    (hval : SampleDl.allVals (fun v => 0 ≤ v ∧ v ≤ 255) (cvResize frame)) :
    SampleDl.dims4 (SampleDl.preprocess_frame cvResize frame) 1 3 224 224
      ∧ SampleDl.allVals4 (fun v => 0 ≤ v ∧ v ≤ 1)
          (SampleDl.preprocess_frame cvResize frame) := by
  have hd1 := dims3_cvtColorBGR2RGB hdim
  have hd2 := dims3_divBy255 hd1
  have hv1 := allVals_cvtColorBGR2RGB hval
  have hv2 := allVals_divBy255 hv1
  constructor
  · refine ⟨rfl, ?_⟩
    intro x hx
    rw [List.mem_singleton.mp hx]
    exact dims3_permute201 hd2 (by norm_num) (by norm_num)
  · intro x hx
    rw [List.mem_singleton.mp hx]
    exact allVals_permute201 hd2 (by norm_num) (by norm_num) hv2

/-- Witness for C10: a resizer returning the constant 224×224×3 image with
all channel values 100. -/
theorem C10_preprocess_shape_witness :
    SampleDl.dims4
        (SampleDl.preprocess_frame
          (fun _ => List.replicate 224 (List.replicate 224 (List.replicate 3 (100 : ℚ)))) [])
        1 3 224 224
      ∧ SampleDl.allVals4 (fun v => 0 ≤ v ∧ v ≤ 1)
          (SampleDl.preprocess_frame
            (fun _ => List.replicate 224 (List.replicate 224 (List.replicate 3 (100 : ℚ)))) []) := by
  refine C10_preprocess_shape _ [] ⟨by rw [List.length_replicate], ?_⟩ ?_
  · intro row hrow
    rw [List.eq_of_mem_replicate hrow]
    refine ⟨by rw [List.length_replicate], ?_⟩
    intro px hpx
    rw [List.eq_of_mem_replicate hpx]
    rw [List.length_replicate]
  · intro row hrow px hpx v hv
    rw [List.eq_of_mem_replicate hrow] at hpx
    rw [List.eq_of_mem_replicate hpx] at hv
    rw [List.eq_of_mem_replicate hv]
    norm_num
